import Mathlib

/-!
Shallow embedding of the Quote Pricing & Lookup Engine of the
construction-equipment service-quote tool: the database normalizer
(`load_srt_database.py`), the sidebar search loops and the pricing
computations of the two Streamlit app variants
(`streamlit_quote_tool_pro.py`, `streamlit_quote_tool_pro_FIXED.py`),
and the quote-state mutations (add / remove / clear).

Machine floating-point `hours`, multipliers and rates are modelled as
rationals (ℚ); Python strings are modelled as Lean `String`, with the
charwise string primitives the code uses (`lower`, `title`,
`split('_')`, substring containment) re-implemented structurally over
`String.data` so that they evaluate inside the kernel.
-/

namespace QuoteTool

/-! ### String primitives (charwise models of the Python methods used) -/

/-- Model of Python `str.lower()` (charwise ASCII lowering). -/
def lowerStr (s : String) : String := ⟨s.data.map Char.toLower⟩

/-- Substring test on char lists: does `pat` occur contiguously in `hay`?
Model of Python `pat in hay`. -/
def listContainsSub (hay pat : List Char) : Bool :=
  match hay with
  | [] => pat.isEmpty
  | _ :: t => (pat == hay.take pat.length) || listContainsSub t pat

/-- Model of Python `pat in hay` on strings. -/
def containsSub (hay pat : String) : Bool :=
  listContainsSub hay.data pat.data

/-- Helper for `splitUnderscore`: accumulates the current token (reversed). -/
def splitUnderscoreAux : List Char → List Char → List (List Char)
  | [], acc => [acc.reverse]
  | c :: cs, acc =>
    if c = '_' then acc.reverse :: splitUnderscoreAux cs []
    else splitUnderscoreAux cs (c :: acc)

/-- Model of Python `s.split('_')` (never returns an empty list;
`"".split('_') == [""]`). -/
def splitUnderscore (s : String) : List String :=
  (splitUnderscoreAux s.data []).map (fun l => ⟨l⟩)

/-- Model of Python `s.replace('_', ' ')` (single-character pattern, so the
substring replacement is charwise). -/
def replaceUnderscoreWithSpace (s : String) : String :=
  ⟨s.data.map (fun c => if c = '_' then ' ' else c)⟩

/-- Helper for `pythonTitle`: `prevCased` records whether the previous
character was alphabetic. -/
def pythonTitleAux : List Char → Bool → List Char
  | [], _ => []
  | c :: cs, prevCased =>
    (if c.isAlpha then (if prevCased then c.toLower else c.toUpper) else c)
      :: pythonTitleAux cs c.isAlpha

/-- Model of Python `str.title()`: the first alphabetic character of each
alphabetic run is uppercased, the rest lowercased. -/
def pythonTitle (s : String) : String := ⟨pythonTitleAux s.data false⟩

/-- Model of Python `'_'.join(parts)`. -/
def joinUnderscore : List String → String
  | [] => ""
  | [s] => s
  | s :: rest => s ++ "_" ++ joinUnderscore rest

/-! ### Data model -/

/-- One raw operation record of the source mapping: an entry of
`srt_database_organized.json` / `srt_database.json`
(`{code, description, hours}`). -/
structure Op where
  code : String
  description : String
  hours : ℚ
deriving Repr, DecidableEq

/-- One row of the flat table built by `load_srt_database` (the entries of
`all_codes`). -/
structure FlatRow where
  model_key : String
  equipment_type : String
  model_name : String
  code : String
  description : String
  hours : ℚ
deriving Repr, DecidableEq

/-- One entry of `model_lookup` built by `load_srt_database`. -/
structure ModelInfo where
  display_name : String
  equipment_type : String
  model_name : String
  num_codes : ℕ
deriving Repr, DecidableEq

/-- One search-result record of the sidebar search loop of
`streamlit_quote_tool_pro.py` (`results.append({...})`). -/
structure SearchResult where
  model : String
  code : String
  description : String
  hours : ℚ
deriving Repr, DecidableEq

/-- One quote line item held in `st.session_state.quote_items`. -/
structure QuoteItem where
  code : String
  description : String
  hours : ℚ
  model : String
deriving Repr, DecidableEq

/-- The six difficulty-factor selections held in
`st.session_state.difficulty_factors` (Python dict insertion order:
age, condition, location, manufacturer, urgency, complexity). -/
structure DifficultyFactors where
  age : ℚ
  condition : ℚ
  location : ℚ
  manufacturer : ℚ
  urgency : ℚ
  complexity : ℚ
deriving Repr, DecidableEq

/-- The per-session quote state: the item list and the factor selections. -/
structure QuoteState where
  items : List QuoteItem
  factors : DifficultyFactors
deriving Repr, DecidableEq

/-! ### Pricing engine (tab 3 of both app variants) -/

/-- The values of the `difficulty_factors` dict in its insertion order,
as iterated by `for factor_value in st.session_state.difficulty_factors.values()`. -/
def factorValues (f : DifficultyFactors) : List ℚ :=
  [f.age, f.condition, f.location, f.manufacturer, f.urgency, f.complexity]

/-- Model of `total_multiplier = 1.0; for factor_value in ...: total_multiplier *= factor_value`. -/
def totalMultiplier (f : DifficultyFactors) : ℚ :=
  (factorValues f).foldl (· * ·) 1

/-- One row of the tab-3 detailed breakdown (`quote_data.append({...})`),
with the numeric values kept unformatted. -/
structure LineBreakdown where
  code : String
  description : String
  model : String
  base_hours : ℚ
  adj_hours : ℚ
  cost : ℚ
deriving Repr, DecidableEq

/-- The summary values computed in tab 3 of both app variants. -/
structure QuoteSummary where
  base_hours : ℚ
  total_multiplier : ℚ
  adjusted_hours : ℚ
  total_cost : ℚ
  line_items : List LineBreakdown
deriving Repr, DecidableEq

/-- Model of the tab-3 pricing computation of both app variants:
`base_hours = sum(item['hours'] ...)`, the factor-product loop,
`adjusted_hours = base_hours * total_multiplier`,
`total_cost = adjusted_hours * labor_rate`, and the per-line breakdown
`adjusted_item_hours = item['hours'] * total_multiplier`,
`item_cost = adjusted_item_hours * labor_rate`. -/
def priceQuote (items : List QuoteItem) (f : DifficultyFactors) (labor_rate : ℚ) :
    QuoteSummary :=
  let base_hours := (items.map (fun item => item.hours)).sum
  let total_multiplier := totalMultiplier f
  let adjusted_hours := base_hours * total_multiplier
  let total_cost := adjusted_hours * labor_rate
  let quote_data := items.map (fun item =>
    let adjusted_item_hours := item.hours * total_multiplier
    let item_cost := adjusted_item_hours * labor_rate
    { code := item.code, description := item.description, model := item.model,
      base_hours := item.hours, adj_hours := adjusted_item_hours,
      cost := item_cost : LineBreakdown })
  ⟨base_hours, total_multiplier, adjusted_hours, total_cost, quote_data⟩

/-! ### Search / lookup engine -/

/-- The sidebar matching predicate of `streamlit_quote_tool_pro.py`:
`code_match = search_lower in op['code'].lower()`,
`desc_match = search_lower in op['description'].lower()`,
kept `if code_match or desc_match`. -/
def opMatches (search_query : String) (op : Op) : Bool :=
  containsSub (lowerStr op.code) (lowerStr search_query) ||
  containsSub (lowerStr op.description) (lowerStr search_query)

/-- Matching predicate written from the spec's words: case-insensitive
substring containment of the query text in `code` OR in `description`. -/
def specSearchMatch (queryText : String) (op : Op) : Bool :=
  containsSub (lowerStr op.code) (lowerStr queryText) ||
  containsSub (lowerStr op.description) (lowerStr queryText)

/-- The nested database of `streamlit_quote_tool_pro.py`: a mapping from
model key to operation list, in dict insertion order. -/
abbrev Database := List (String × List Op)

/-- Model of the dict access `database[model]` (the UI only looks up keys
that exist; a missing key yields the empty operation list here). -/
def dbLookup (db : Database) (model : String) : List Op :=
  match db.find? (fun p => p.1 == model) with
  | some p => p.2
  | none => []

/-- The search scope of the sidebar: `"All Models"` or one selected model. -/
inductive Scope
  | allModels
  | single (modelKey : String)

/-- The inner body of the sidebar search loop for one model: the matching
operations of `database[model]`, each appended to `results` with its model
tag. -/
def searchHits (db : Database) (search_query : String) (model : String) :
    List SearchResult :=
  ((dbLookup db model).filter (opMatches search_query)).map (fun op =>
    { model := model, code := op.code, description := op.description,
      hours := op.hours : SearchResult })

/-- Model of the sidebar search loop of `streamlit_quote_tool_pro.py`:
`search_models` is either `database.keys()` or `[selected_model]`, and
for each model every operation passing `code_match or desc_match` is
appended to `results` with its model tag. -/
def sidebarSearch (db : Database) (search_query : String) (scope : Scope) :
    List SearchResult :=
  let search_models : List String :=
    match scope with
    | .allModels => db.map (fun p => p.1)
    | .single selected_model => [selected_model]
  (search_models.map (searchHits db search_query)).flatten

/-- The rows of the nested database flattened in its existing order
(models in dict order, operations in list order) and tagged with their
model key — the row order of the table the sidebar search scans. -/
def tableRows (db : Database) : List SearchResult :=
  (db.map (fun p => p.2.map (fun op =>
    { model := p.1, code := op.code, description := op.description,
      hours := op.hours : SearchResult }))).flatten

/-- Model of `search_srt_codes` of `load_srt_database.py`: keeps the rows
whose lowered description contains the lowered query
(`df['description'].str.lower().str.contains(query_lower, na=False)`;
pandas treats the pattern as a regex, which coincides with substring
containment for the metacharacter-free queries modelled here).
Note it does not consult the `code` column. -/
def search_srt_codes (df : List FlatRow) (query : String) : List FlatRow :=
  df.filter (fun r => containsSub (lowerStr r.description) (lowerStr query))

/-- Model of `get_model_codes` of `load_srt_database.py`:
`df[df['model_key'] == model_key]`. -/
def get_model_codes (df : List FlatRow) (model_key : String) : List FlatRow :=
  df.filter (fun r => r.model_key == model_key)

/-- Model of the FIXED variant's sidebar filter:
`[op for op in ops if term.lower() in op['description'].lower() or term.lower() in op['code'].lower()]`. -/
def filterOps (available_operations : List Op) (search_term : String) : List Op :=
  available_operations.filter (fun op =>
    containsSub (lowerStr op.description) (lowerStr search_term) ||
    containsSub (lowerStr op.code) (lowerStr search_term))

/-! ### Database normalizer (`load_srt_database.py`, JSON branch) -/

/-- Model-key parsing of `load_srt_database`:
`parts = model_key.split('_')`,
`equipment_type = parts[0].replace('_', ' ').title()`,
`model_name = '_'.join(parts[1:]) if len(parts) > 1 else parts[0]`. -/
def parseModelKey (model_key : String) : String × String :=
  let parts := splitUnderscore model_key
  let equipment_type := pythonTitle (replaceUnderscoreWithSpace (parts.headD ""))
  let model_name :=
    if parts.length > 1 then joinUnderscore parts.tail else parts.headD ""
  (equipment_type, model_name)

/-- The `model_lookup` entry built for one model
(`display_name`, `equipment_type`, `model_name`, `num_codes`). -/
def mkModelInfo (model_key : String) (codes : List Op) : ModelInfo :=
  let p := parseModelKey model_key
  { display_name := p.1 ++ " " ++ p.2,
    equipment_type := p.1,
    model_name := p.2,
    num_codes := codes.length }

/-- The flat rows appended to `all_codes` for one model. -/
def mkFlatRows (model_key : String) (codes : List Op) : List FlatRow :=
  let p := parseModelKey model_key
  codes.map (fun code =>
    { model_key := model_key, equipment_type := p.1, model_name := p.2,
      code := code.code, description := code.description,
      hours := code.hours : FlatRow })

/-- Model of the JSON branch of `load_srt_database`: iterates the source
mapping in order, building the flat table `all_codes` and the index
`model_lookup` (an association list, since JSON object keys are unique). -/
def loadFromJson (srt_data : List (String × List Op)) :
    List FlatRow × List (String × ModelInfo) :=
  ((srt_data.map (fun p => mkFlatRows p.1 p.2)).flatten,
   srt_data.map (fun p => (p.1, mkModelInfo p.1 p.2)))

/-! ### Database source selection (`load_srt_database.py`, file fallback) -/

/-- Helper: the distinct model keys of a flat table in first-occurrence
order, as `df['model_key'].unique()` yields them. -/
def firstUniquesAux : List String → List String → List String
  | [], _ => []
  | k :: rest, seen =>
    if k ∈ seen then firstUniquesAux rest seen
    else k :: firstUniquesAux rest (k :: seen)

/-- The `model_lookup` entry rebuilt from the flat table for one key:
first matching row's type/name, `num_codes` = number of matching rows. -/
def rebuildEntry (df : List FlatRow) (model_key : String) : ModelInfo :=
  match df.find? (fun r => r.model_key == model_key) with
  | some model_data =>
    { display_name := model_data.equipment_type ++ " " ++ model_data.model_name,
      equipment_type := model_data.equipment_type,
      model_name := model_data.model_name,
      num_codes := (df.filter (fun r => r.model_key == model_key)).length }
  | none => { display_name := "", equipment_type := "", model_name := "", num_codes := 0 }

/-- Model of the lookup rebuild of the pickle branch
(`for model_key in df['model_key'].unique(): ...`). -/
def rebuildLookup (df : List FlatRow) : List (String × ModelInfo) :=
  (firstUniquesAux (df.map (fun r => r.model_key)) []).map
    (fun k => (k, rebuildEntry df k))

/-- The files `load_srt_database` probes, with their parsed contents when
present: `srt_database_organized.json`, `srt_database.pkl`,
`model_lookup.pkl`. -/
structure FileSystem where
  json_file : Option (List (String × List Op))
  pkl_file : Option (List FlatRow)
  lookup_file : Option (List (String × ModelInfo))

/-- The error raised when no source encoding is present. -/
inductive LoadError
  | databaseNotFound (msg : String)
deriving Repr, DecidableEq

/-- The message of the `FileNotFoundError` raised by `load_srt_database`. -/
def databaseNotFoundMsg : String :=
  "No database found! Please add 'srt_database_organized.json' to your repo.\n" ++
  "Or run convert_json_to_pickle.py if you have the JSON file."

/-- Model of `load_srt_database`: prefer the JSON encoding, fall back to the
pickle encoding (with the side-car lookup when present, else rebuilding
it), and raise the remediation error when neither file exists. -/
def load_srt_database (fs : FileSystem) :
    Except LoadError (List FlatRow × List (String × ModelInfo)) :=
  match fs.json_file with
  | some srt_data => .ok (loadFromJson srt_data)
  | none =>
    match fs.pkl_file with
    | some df =>
      match fs.lookup_file with
      | some model_lookup => .ok (df, model_lookup)
      | none => .ok (df, rebuildLookup df)
    | none => .error (.databaseNotFound databaseNotFoundMsg)

/-! ### Quote aggregate operations -/

/-- The error raised by `list.pop(i)` at an invalid position. -/
inductive QuoteError
  | indexOutOfRange
deriving Repr, DecidableEq

/-- Model of Python `items.pop(i)` (negative indices count from the end;
an index outside `[-len, len)` raises `IndexError` and mutates nothing). -/
def listPop (items : List QuoteItem) (i : Int) :
    Except QuoteError (List QuoteItem) :=
  let n : Int := items.length
  if i < -n ∨ n ≤ i then .error .indexOutOfRange
  else
    let j : ℕ := (if i < 0 then i + n else i).toNat
    .ok (items.eraseIdx j)

/-- Model of the remove-button handler
(`st.session_state.quote_items.pop(i)`) as a state transition: on error
the state is returned unchanged together with the error. -/
def removeItem (s : QuoteState) (i : Int) : QuoteState × Option QuoteError :=
  match listPop s.items i with
  | .ok items2 => ({ s with items := items2 }, none)
  | .error e => (s, some e)

/-- Model of the Clear Quote button: `st.session_state.quote_items = []`
(the difficulty-factor dict is not touched). -/
def clearQuote (s : QuoteState) : QuoteState :=
  { s with items := [] }

/-- Model of the FIXED variant's Add button on the database-backed path:
`if not any(item['code'] == op['code'] for item in quote_items): append
else: warning` — the item is appended only when no existing item shares
its code. -/
def addItemDedup (s : QuoteState) (quote_item : QuoteItem) : QuoteState :=
  if s.items.any (fun item => item.code == quote_item.code) then s
  else { s with items := s.items ++ [quote_item] }

/-! ### Concrete sample data -/

/-- A small concrete two-model database used to instantiate the search and
normalizer statements on explicit inputs. -/
def exampleDb : Database :=
  [("excavator_580N",
    [⟨"ENG-001", "Engine oil and filter change", 2⟩,
     ⟨"HYD-100", "Hydraulic pump replace", 7/2⟩]),
   ("dozer_850K",
    [⟨"UC-200", "Track tension adjust", 1⟩])]

/-! ## Theorems -/

/-- C1: for every quote with non-negative item hours, every factor set and
every non-negative labor rate, the tab-3 pricing computation yields
`baseHours` equal to the sum of the items' hours, `adjustedHours` equal to
`baseHours` times the composed multiplier, `totalCost` equal to
`adjustedHours` times the labor rate, and applies that same multiplier and
rate uniformly to every line
(`adjustedHours_i = hours_i * composedMultiplier`,
`cost_i = adjustedHours_i * laborRate`). -/
theorem priceQuote_uniform (items : List QuoteItem) (f : DifficultyFactors)
    (labor_rate : ℚ)
    (hhours : ∀ item ∈ items, 0 ≤ item.hours) (hrate : 0 ≤ labor_rate) :
    (priceQuote items f labor_rate).base_hours
      = (items.map (fun item => item.hours)).sum ∧
    (priceQuote items f labor_rate).adjusted_hours
      = (priceQuote items f labor_rate).base_hours * totalMultiplier f ∧
    (priceQuote items f labor_rate).total_cost
      = (priceQuote items f labor_rate).adjusted_hours * labor_rate ∧
    (priceQuote items f labor_rate).line_items.map (fun l => l.adj_hours)
      = items.map (fun item => item.hours * totalMultiplier f) ∧
    (priceQuote items f labor_rate).line_items.map (fun l => l.cost)
      = items.map (fun item => item.hours * totalMultiplier f * labor_rate) := by
  refine ⟨rfl, rfl, rfl, ?_, ?_⟩ <;>
    simp [priceQuote, List.map_map, Function.comp_def]

/-- Witness for C1 at a concrete two-item quote with positive hours and the
default labor rate. -/
theorem priceQuote_uniform_witness :
    (priceQuote [⟨"ENG-001", "Engine oil and filter change", 2, "Excavator 580N"⟩,
                 ⟨"HYD-100", "Hydraulic pump replace", 7/2, "Excavator 580N"⟩]
        ⟨5/4, 11/10, 1, 21/20, 1, 1⟩ 125).adjusted_hours
      = (priceQuote [⟨"ENG-001", "Engine oil and filter change", 2, "Excavator 580N"⟩,
                 ⟨"HYD-100", "Hydraulic pump replace", 7/2, "Excavator 580N"⟩]
        ⟨5/4, 11/10, 1, 21/20, 1, 1⟩ 125).base_hours
        * totalMultiplier ⟨5/4, 11/10, 1, 21/20, 1, 1⟩ :=
  (priceQuote_uniform _ _ _
    (by norm_num [List.forall_mem_cons]) (by norm_num)).2.1

/-- C2: composing the multiplier with all six factors at `1.0` returns
exactly `1`, and pricing an empty quote yields `baseHours = 0`,
`adjustedHours = 0` and `totalCost = 0` for every factor set and rate. -/
theorem unitFactors_and_empty_quote (f : DifficultyFactors) (labor_rate : ℚ) :
    totalMultiplier ⟨1, 1, 1, 1, 1, 1⟩ = 1 ∧
    (priceQuote [] f labor_rate).base_hours = 0 ∧
    (priceQuote [] f labor_rate).adjusted_hours = 0 ∧
    (priceQuote [] f labor_rate).total_cost = 0 := by
  refine ⟨by norm_num [totalMultiplier, factorValues], rfl, ?_, ?_⟩ <;>
    simp [priceQuote]

/-- C8: `removeItem` at an index outside Python's valid range `[-n, n)`
fails with `IndexOutOfRange` and leaves the state unchanged, while a valid
index removes exactly the addressed item, preserving the relative order of
the remaining items (`take j ++ drop (j+1)` at the normalized position). -/
theorem removeItem_spec (s : QuoteState) (i : Int) :
    (¬ (-(s.items.length : Int) ≤ i ∧ i < (s.items.length : Int)) →
      removeItem s i = (s, some .indexOutOfRange)) ∧
    ((-(s.items.length : Int) ≤ i ∧ i < (s.items.length : Int)) →
      removeItem s i
        = ({ s with items :=
              (s.items.take ((if i < 0 then i + s.items.length else i).toNat)
                ++ s.items.drop
                  ((if i < 0 then i + s.items.length else i).toNat + 1)) },
           none)) := by
  constructor
  · intro h
    have hout : i < -(s.items.length : Int) ∨ (s.items.length : Int) ≤ i := by
      push_neg at h
      by_cases hle : -(s.items.length : Int) ≤ i
      · exact Or.inr (h hle)
      · exact Or.inl (by omega)
    simp [removeItem, listPop, hout]
  · intro h
    have hout : ¬ (i < -(s.items.length : Int) ∨ (s.items.length : Int) ≤ i) := by
      omega
    simp [removeItem, listPop, hout, List.eraseIdx_eq_take_drop_succ]

/-- Witness for C8: on a concrete two-item state, index `5` is rejected
leaving the items untouched, and index `0` removes the first item. -/
theorem removeItem_spec_witness :
    removeItem ⟨[⟨"A", "a", 1, "m"⟩, ⟨"B", "b", 2, "m"⟩], ⟨1, 1, 1, 1, 1, 1⟩⟩ 5
      = (⟨[⟨"A", "a", 1, "m"⟩, ⟨"B", "b", 2, "m"⟩], ⟨1, 1, 1, 1, 1, 1⟩⟩,
         some .indexOutOfRange) ∧
    removeItem ⟨[⟨"A", "a", 1, "m"⟩, ⟨"B", "b", 2, "m"⟩], ⟨1, 1, 1, 1, 1, 1⟩⟩ 0
      = (⟨[⟨"B", "b", 2, "m"⟩], ⟨1, 1, 1, 1, 1, 1⟩⟩, none) :=
  ⟨(removeItem_spec ⟨[⟨"A", "a", 1, "m"⟩, ⟨"B", "b", 2, "m"⟩],
      ⟨1, 1, 1, 1, 1, 1⟩⟩ 5).1 (by decide),
   (removeItem_spec ⟨[⟨"A", "a", 1, "m"⟩, ⟨"B", "b", 2, "m"⟩],
      ⟨1, 1, 1, 1, 1, 1⟩⟩ 0).2 (by decide)⟩

/-- C9: the Clear Quote action resets `items` to the empty list and leaves
all six difficulty-factor selections exactly as they were. -/
theorem clearQuote_spec (s : QuoteState) :
    (clearQuote s).items = [] ∧ (clearQuote s).factors = s.factors :=
  ⟨rfl, rfl⟩

/-- C10: in the FIXED variant's database-backed add path, adding an
operation whose code is already present leaves the items unchanged, and the
operation is appended if and only if no existing item has the same code. -/
theorem addItemDedup_spec (s : QuoteState) (quote_item : QuoteItem) :
    ((∃ item ∈ s.items, item.code = quote_item.code) →
      addItemDedup s quote_item = s) ∧
    (addItemDedup s quote_item = { s with items := s.items ++ [quote_item] }
      ↔ ¬ ∃ item ∈ s.items, item.code = quote_item.code) := by
  constructor
  · rintro ⟨item, hmem, hcode⟩
    have hany : s.items.any (fun it => it.code == quote_item.code) = true :=
      List.any_eq_true.mpr ⟨item, hmem, by simp [hcode]⟩
    simp [addItemDedup, hany]
  · constructor
    · intro heq
      rintro ⟨item, hmem, hcode⟩
      have hany : s.items.any (fun it => it.code == quote_item.code) = true :=
        List.any_eq_true.mpr ⟨item, hmem, by simp [hcode]⟩
      have hsame : s = { s with items := s.items ++ [quote_item] } := by
        rw [← heq]; simp [addItemDedup, hany]
      have hlen := congrArg (fun st => st.items.length) hsame
      simp at hlen
    · intro hno
      have hany : s.items.any (fun it => it.code == quote_item.code) = false := by
        rw [List.any_eq_false]
        intro item hmem hbeq
        exact hno ⟨item, hmem, by simpa using hbeq⟩
      simp [addItemDedup, hany]

/-- Witness for C10: re-adding an item with an already-present code on a
concrete one-item state is a no-op. -/
theorem addItemDedup_spec_witness :
    addItemDedup ⟨[⟨"ENG-001", "Engine oil", 2, "m"⟩], ⟨1, 1, 1, 1, 1, 1⟩⟩
        ⟨"ENG-001", "Engine oil and filter change", 3, "m"⟩
      = ⟨[⟨"ENG-001", "Engine oil", 2, "m"⟩], ⟨1, 1, 1, 1, 1, 1⟩⟩ :=
  (addItemDedup_spec ⟨[⟨"ENG-001", "Engine oil", 2, "m"⟩], ⟨1, 1, 1, 1, 1, 1⟩⟩
      ⟨"ENG-001", "Engine oil and filter change", 3, "m"⟩).1
    ⟨⟨"ENG-001", "Engine oil", 2, "m"⟩, by simp, rfl⟩

/-- C3 counterexample: the claim's predicate (case-insensitive substring
containment of the query in code OR description) holds for the operation
`⟨"HYD-100", "replace pump seal"⟩` with query `"HYD"` — the query occurs in
the code — yet `search_srt_codes`, one of the search implementations the
claim describes, returns no row for it, because it consults only the
description column. -/
theorem search_predicate_counterexample :
    specSearchMatch "HYD" ⟨"HYD-100", "replace pump seal", 3⟩ = true ∧
    search_srt_codes
      [⟨"excavator_580N", "Excavator", "580N", "HYD-100", "replace pump seal", 3⟩]
      "HYD" = [] := by
  exact ⟨rfl, rfl⟩

/-- C3 (amended): the sidebar matching predicate of both app variants is
exactly case-insensitive substring containment of the query in code OR
description — and `"OIL"` matches the record described — while the library
helper `search_srt_codes` keeps precisely the rows whose description
(alone) contains the query case-insensitively. -/
theorem search_predicate_amended (q : String) (op : Op) (ops : List Op)
    (df : List FlatRow) :
    opMatches q op = specSearchMatch q op ∧
    filterOps ops q = ops.filter (fun op2 => specSearchMatch q op2) ∧
    search_srt_codes df q
      = df.filter (fun r =>
          containsSub (lowerStr r.description) (lowerStr q)) ∧
    opMatches "OIL" ⟨"ENG-001", "Engine oil and filter change", 1⟩ = true := by
  refine ⟨rfl, ?_, rfl, ?_⟩
  · exact List.filter_congr (fun op2 _ => Bool.or_comm _ _)
  · rfl

/-- C7: when neither source file is present `load_srt_database` fails with
the `DatabaseNotFound` error whose message names the expected file
`srt_database_organized.json`, and when either encoding is present it never
raises that error. -/
theorem load_database_not_found (fs : FileSystem) :
    (fs.json_file = none ∧ fs.pkl_file = none →
      load_srt_database fs = .error (.databaseNotFound databaseNotFoundMsg) ∧
      containsSub databaseNotFoundMsg "srt_database_organized.json" = true) ∧
    ((fs.json_file ≠ none ∨ fs.pkl_file ≠ none) →
      ∀ e, load_srt_database fs ≠ .error e) := by
  obtain ⟨j, p, l⟩ := fs
  constructor
  · rintro ⟨hj, hp⟩
    simp only at hj hp
    subst hj; subst hp
    exact ⟨rfl, rfl⟩
  · rintro (hj | hp) e
    · obtain ⟨srt_data, rfl⟩ := Option.ne_none_iff_exists'.mp hj
      simp [load_srt_database]
    · obtain ⟨df, rfl⟩ := Option.ne_none_iff_exists'.mp hp
      cases j with
      | some srt_data => simp [load_srt_database]
      | none => cases l <;> simp [load_srt_database]

/-- Witness for C7: with all three files absent the load fails with the
remediation message, which contains the expected file name. -/
theorem load_database_not_found_witness :
    load_srt_database ⟨none, none, none⟩
      = .error (.databaseNotFound databaseNotFoundMsg) ∧
    containsSub databaseNotFoundMsg "srt_database_organized.json" = true :=
  (load_database_not_found ⟨none, none, none⟩).1 ⟨rfl, rfl⟩

/-- Helper: dict lookup on a cons cell picks the head when the key matches
and recurses otherwise. -/
theorem dbLookup_cons (k : String) (ops : List Op) (rest : Database)
    (m : String) :
    dbLookup ((k, ops) :: rest) m = if k = m then ops else dbLookup rest m := by
  by_cases h : k = m
  · subst h; simp [dbLookup]
  · simp [dbLookup, h]

/-- Helper: a single-model search is the per-model hit list. -/
theorem sidebarSearch_single (db : Database) (q m : String) :
    sidebarSearch db q (.single m) = searchHits db q m := by
  simp [sidebarSearch]

/-- Helper: the per-model hit lists ignore database entries whose key is
not the looked-up model. -/
theorem searchHits_cons_ne (k : String) (ops : List Op) (tl : Database)
    (q m : String) (h : k ≠ m) :
    searchHits ((k, ops) :: tl) q m = searchHits tl q m := by
  simp [searchHits, dbLookup_cons, h]

/-- Helper: an all-models search over a database with pairwise-distinct
keys equals a filter of the flattened table, preserving its row order. -/
theorem sidebarSearch_all_eq_filter (db : Database) (q : String)
    (hnd : (db.map (fun p => p.1)).Nodup) :
    sidebarSearch db q .allModels
      = (tableRows db).filter
          (fun r => opMatches q ⟨r.code, r.description, r.hours⟩) := by
  induction db with
  | nil => rfl
  | cons hd tl ih =>
    obtain ⟨k, ops⟩ := hd
    rw [List.map_cons, List.nodup_cons] at hnd
    obtain ⟨hk, htl⟩ := hnd
    have hstep : sidebarSearch ((k, ops) :: tl) q .allModels
        = searchHits ((k, ops) :: tl) q k ++ sidebarSearch tl q .allModels := by
      simp only [sidebarSearch, List.map_cons, List.flatten_cons]
      congr 1
      refine congrArg _ (List.map_congr_left ?_)
      intro m hm
      exact searchHits_cons_ne k ops tl q m (fun he => hk (he ▸ hm))
    rw [hstep, ih htl]
    simp only [tableRows, List.map_cons, List.flatten_cons, List.filter_append]
    congr 1
    rw [searchHits, dbLookup_cons, if_pos rfl, List.filter_map]
    rfl

/-- C4: a search scoped to a single model only returns results tagged with
that model, and a search scoped to all models returns the union of the
per-model match sets — in the existing row order of the flattened table
when the model keys are distinct, as dict keys are. -/
theorem search_scope (db : Database) (q : String) (m : String)
    (hnd : (db.map (fun p => p.1)).Nodup) :
    (∀ r ∈ sidebarSearch db q (.single m), r.model = m) ∧
    sidebarSearch db q .allModels
      = (db.map (fun p => sidebarSearch db q (.single p.1))).flatten ∧
    sidebarSearch db q .allModels
      = (tableRows db).filter
          (fun r => opMatches q ⟨r.code, r.description, r.hours⟩) := by
  refine ⟨?_, ?_, sidebarSearch_all_eq_filter db q hnd⟩
  · intro r hr
    rw [sidebarSearch_single] at hr
    simp only [searchHits, List.mem_map] at hr
    obtain ⟨op, _, rfl⟩ := hr
    rfl
  · simp [sidebarSearch, sidebarSearch_single, List.map_map, Function.comp_def]

/-- Witness for C4 on the concrete two-model database, with query
`"oil"`. -/
theorem search_scope_witness :
    (∀ r ∈ sidebarSearch exampleDb "oil" (.single "excavator_580N"),
      r.model = "excavator_580N") ∧
    sidebarSearch exampleDb "oil" .allModels
      = (exampleDb.map
          (fun p => sidebarSearch exampleDb "oil" (.single p.1))).flatten ∧
    sidebarSearch exampleDb "oil" .allModels
      = (tableRows exampleDb).filter
          (fun r => opMatches "oil" ⟨r.code, r.description, r.hours⟩) :=
  search_scope exampleDb "oil" "excavator_580N" (by decide)

/-- Helper: filtering one model's flat rows by model key keeps all of them
when the key matches and none otherwise. -/
theorem filter_mkFlatRows (k2 : String) (ops : List Op) (k : String) :
    (mkFlatRows k2 ops).filter (fun r => r.model_key == k)
      = if k2 = k then mkFlatRows k2 ops else [] := by
  by_cases h : k2 = k
  · subst h
    simp [mkFlatRows, List.filter_map, Function.comp_def]
  · simp [mkFlatRows, List.filter_map, Function.comp_def, h]

/-- Helper: a model key absent from the source mapping tags no row of the
flat table. -/
theorem flat_rows_filter_not_mem (tl : List (String × List Op)) (k : String)
    (hk : k ∉ tl.map (fun p => p.1)) :
    ((tl.map (fun p => mkFlatRows p.1 p.2)).flatten.filter
        (fun r => r.model_key == k)) = [] := by
  induction tl with
  | nil => rfl
  | cons hd tl2 ih =>
    obtain ⟨k2, ops2⟩ := hd
    simp only [List.map_cons, List.mem_cons] at hk
    push_neg at hk
    obtain ⟨hne, hk2⟩ := hk
    simp only [List.map_cons, List.flatten_cons, List.filter_append]
    rw [filter_mkFlatRows, if_neg (fun he => hne he.symm), ih hk2]
    rfl

/-- Helper: with pairwise-distinct model keys, the number of flat-table
rows tagged with a member key equals that member's operation count. -/
theorem flat_rows_count (srt_data : List (String × List Op)) (k : String)
    (ops : List Op) (hnd : (srt_data.map (fun p => p.1)).Nodup)
    (hmem : (k, ops) ∈ srt_data) :
    ((srt_data.map (fun p => mkFlatRows p.1 p.2)).flatten.filter
        (fun r => r.model_key == k)).length = ops.length := by
  induction srt_data with
  | nil => cases hmem
  | cons hd tl ih =>
    obtain ⟨k2, ops2⟩ := hd
    rw [List.map_cons, List.nodup_cons] at hnd
    obtain ⟨hk2, htl⟩ := hnd
    rcases List.mem_cons.mp hmem with heq | htail
    · obtain ⟨rfl, rfl⟩ := Prod.mk.injEq .. ▸ heq
      simp only [List.map_cons, List.flatten_cons, List.filter_append]
      rw [filter_mkFlatRows, if_pos rfl, flat_rows_filter_not_mem tl k hk2]
      simp [mkFlatRows]
    · have hne : k2 ≠ k := by
        intro he
        exact hk2 (he ▸ List.mem_map_of_mem (fun p => p.1) htail)
      simp only [List.map_cons, List.flatten_cons, List.filter_append]
      rw [filter_mkFlatRows, if_neg hne]
      simpa using ih htl htail

/-- C5: for a well-formed source mapping (distinct model keys), the flat
table produced by the JSON branch of `load_srt_database` has exactly one
row per operation — its row count is the sum of the per-model operation
counts — and each `model_lookup` entry's `num_codes` equals the number of
flat rows tagged with its model key. -/
theorem normalize_counts (srt_data : List (String × List Op))
    (hnd : (srt_data.map (fun p => p.1)).Nodup) :
    (loadFromJson srt_data).1.length
      = (srt_data.map (fun p => p.2.length)).sum ∧
    ∀ e ∈ (loadFromJson srt_data).2,
      e.2.num_codes
        = ((loadFromJson srt_data).1.filter
            (fun r => r.model_key == e.1)).length := by
  constructor
  · simp [loadFromJson, List.length_flatten, List.map_map, Function.comp_def,
      mkFlatRows]
  · intro e he
    simp only [loadFromJson, List.mem_map] at he
    obtain ⟨⟨k, ops⟩, hmem, rfl⟩ := he
    simp only [loadFromJson, mkModelInfo]
    exact (flat_rows_count srt_data k ops hnd hmem).symm

/-- Witness for C5 on the concrete two-model mapping. -/
theorem normalize_counts_witness :
    (loadFromJson exampleDb).1.length
      = (exampleDb.map (fun p => p.2.length)).sum ∧
    ∀ e ∈ (loadFromJson exampleDb).2,
      e.2.num_codes
        = ((loadFromJson exampleDb).1.filter
            (fun r => r.model_key == e.1)).length :=
  normalize_counts exampleDb (by decide)

/-- Helper: the first token produced by the split never contains the
separator character. -/
theorem splitUnderscoreAux_head (l : List Char) (acc : List Char)
    (h : '_' ∉ acc) :
    '_' ∉ (splitUnderscoreAux l acc).headD [] := by
  induction l generalizing acc with
  | nil => simpa [splitUnderscoreAux] using h
  | cons c cs ih =>
    by_cases hc : c = '_'
    · simpa [splitUnderscoreAux, hc] using h
    · have hacc : '_' ∉ c :: acc := by
        simp only [List.mem_cons, not_or]
        exact ⟨fun he => hc he.symm, h⟩
      simpa [splitUnderscoreAux, hc] using ih (c :: acc) hacc

/-- Helper: the first token of `splitUnderscore` contains no underscore. -/
theorem splitUnderscore_head_no_underscore (k : String) :
    '_' ∉ ((splitUnderscore k).headD "").data := by
  have h := splitUnderscoreAux_head k.data [] (by simp)
  unfold splitUnderscore
  cases hs : splitUnderscoreAux k.data [] with
  | nil => simp
  | cons t ts => rw [hs] at h; simpa using h

/-- Helper: replacing underscores by spaces is the identity on a string
without underscores. -/
theorem replaceUnderscore_eq_self (s : String) (h : '_' ∉ s.data) :
    replaceUnderscoreWithSpace s = s := by
  unfold replaceUnderscoreWithSpace
  rw [List.map_congr_left (g := id) (fun c hc => by
    simp only [id]
    exact if_neg (fun (he : c = '_') => h (he ▸ hc)))]
  rw [List.map_id]

/-- C6: the `equipmentType` / `modelName` derivation is a pure function of
`modelKey` alone (independent of the operation list): the key is split on
`'_'`, the first token is title-cased to `equipmentType`, the remaining
tokens are rejoined with `'_'` to `modelName` (a single-token key keeps
that token), `displayName` is `equipmentType ++ " " ++ modelName`, and
`"excavator_580N"` yields `"Excavator"` / `"580N"` / `"Excavator 580N"`. -/
theorem model_key_derivation (model_key : String) (codes codes2 : List Op) :
    (mkModelInfo model_key codes).equipment_type
      = (mkModelInfo model_key codes2).equipment_type ∧
    (mkModelInfo model_key codes).model_name
      = (mkModelInfo model_key codes2).model_name ∧
    (mkModelInfo model_key codes).equipment_type
      = pythonTitle ((splitUnderscore model_key).headD "") ∧
    ((splitUnderscore model_key).length > 1 →
      (mkModelInfo model_key codes).model_name
        = joinUnderscore (splitUnderscore model_key).tail) ∧
    ((splitUnderscore model_key).length = 1 →
      (mkModelInfo model_key codes).model_name
        = (splitUnderscore model_key).headD "") ∧
    (mkModelInfo model_key codes).display_name
      = (mkModelInfo model_key codes).equipment_type ++ " "
        ++ (mkModelInfo model_key codes).model_name ∧
    (mkModelInfo "excavator_580N" codes).equipment_type = "Excavator" ∧
    (mkModelInfo "excavator_580N" codes).model_name = "580N" ∧
    (mkModelInfo "excavator_580N" codes).display_name = "Excavator 580N" := by
  refine ⟨rfl, rfl, ?_, ?_, ?_, rfl, rfl, rfl, rfl⟩
  · simp only [mkModelInfo, parseModelKey]
    rw [replaceUnderscore_eq_self _ (splitUnderscore_head_no_underscore model_key)]
  · intro h
    simp [mkModelInfo, parseModelKey, h]
  · intro h
    simp [mkModelInfo, parseModelKey, h]

/-- Witness for C6: a single-token key keeps that token as `modelName`. -/
theorem model_key_derivation_witness :
    (mkModelInfo "skidsteer" []).model_name
      = (splitUnderscore "skidsteer").headD "" :=
  (model_key_derivation "skidsteer" [] []).2.2.2.2.1 (by decide)

end QuoteTool
